import Mathlib

/-
Verification of the TikTok affiliate messenger automation core
(src/app0.1.py) against its natural-language specification.

The Python source is shallowly embedded: sheet cells become `Cell`
(string or boolean, matching the `isinstance` checks in the row loop),
Python string operations (`in`, `split`, `strip`, `upper`) are modelled
over `List Char`, the Streamlit session state becomes `SessionState`,
and one script rerun of the automation loop becomes the pure function
`runStep` driven by a `StepIO` oracle describing what the browser,
the page and the sheet write did during that run.
-/

set_option maxHeartbeats 1000000

/-- Python list/str startswith test on character lists: `listStartsWith p s`
is true iff `p` is an initial segment of `s`. -/
def listStartsWith : List Char → List Char → Bool
  | [], _ => true
  | _ :: _, [] => false
  | p :: ps, c :: cs => p == c && listStartsWith ps cs

theorem listStartsWith_iff (p s : List Char) :
    listStartsWith p s = true ↔ ∃ t, s = p ++ t := by
  induction p generalizing s with
  | nil =>
    simp [listStartsWith]
  | cons a ps ih =>
    cases s with
    | nil =>
      simp [listStartsWith]
    | cons c cs =>
      simp only [listStartsWith, Bool.and_eq_true, beq_iff_eq, ih, List.cons_append]
      constructor
      · rintro ⟨rfl, t, rfl⟩
        exact ⟨t, rfl⟩
      · rintro ⟨t, ht⟩
        obtain ⟨h1, h2⟩ := List.cons.inj ht
        exact ⟨h1.symm, t, h2⟩

/-- Split a character list at the first occurrence of the pattern `pat`:
`firstSplit pat s = some (pre, post)` iff `s = pre ++ pat ++ post` with the
occurrence leftmost; `none` iff `pat` does not occur in `s`.  This is the
primitive behind the Python `in`, `split(...)[0]` and `split(...)[1]`
operations the source uses on creator links. -/
def firstSplit (pat : List Char) : List Char → Option (List Char × List Char)
  | [] => if listStartsWith pat [] then some ([], []) else none
  | c :: rest =>
    if listStartsWith pat (c :: rest) then some ([], (c :: rest).drop pat.length)
    else (firstSplit pat rest).map (fun pr => (c :: pr.1, pr.2))

theorem firstSplit_sound (pat : List Char) (s pre post : List Char)
    (h : firstSplit pat s = some (pre, post)) : s = pre ++ pat ++ post := by
  induction s generalizing pre post with
  | nil =>
    simp only [firstSplit] at h
    split at h
    · rename_i hp
      obtain ⟨t, ht⟩ := (listStartsWith_iff pat []).mp hp
      rcases List.append_eq_nil.mp ht.symm with ⟨rfl, rfl⟩
      simp only [Option.some.injEq, Prod.mk.injEq] at h
      obtain ⟨rfl, rfl⟩ := h
      rfl
    · exact absurd h (by simp)
  | cons c cs ih =>
    simp only [firstSplit] at h
    split at h
    · rename_i hp
      obtain ⟨t, ht⟩ := (listStartsWith_iff pat (c :: cs)).mp hp
      simp only [Option.some.injEq, Prod.mk.injEq] at h
      obtain ⟨rfl, rfl⟩ := h
      rw [ht, List.drop_left]
      rfl
    · rename_i hp
      cases hrec : firstSplit pat cs with
      | none => rw [hrec] at h; exact absurd h (by simp)
      | some pr =>
        rw [hrec] at h
        simp only [Option.map_some', Option.some.injEq, Prod.mk.injEq] at h
        obtain ⟨rfl, rfl⟩ := h
        have := ih pr.1 pr.2 (by rw [hrec])
        rw [this]
        rfl

theorem firstSplit_complete (pat : List Char) (a b : List Char) :
    (firstSplit pat (a ++ pat ++ b)).isSome = true := by
  induction a with
  | nil =>
    cases hs : (([] : List Char) ++ pat ++ b) with
    | nil =>
      simp only [List.nil_append] at hs
      rcases List.append_eq_nil.mp hs with ⟨rfl, rfl⟩
      simp [firstSplit, listStartsWith]
    | cons c cs =>
      simp only [List.nil_append] at hs
      rw [firstSplit]
      have hp : listStartsWith pat (c :: cs) = true := by
        rw [listStartsWith_iff]
        exact ⟨b, hs.symm⟩
      simp [hp]
  | cons c a2 ih =>
    rw [List.cons_append, List.cons_append, firstSplit]
    split
    · simp
    · cases hrec : firstSplit pat (a2 ++ pat ++ b) with
      | none => rw [hrec] at ih; exact absurd ih (by simp)
      | some pr => simp

/-- Python `pat in s` for a nonempty pattern. -/
def strContains (pat s : List Char) : Bool := (firstSplit pat s).isSome

theorem strContains_iff (pat s : List Char) :
    strContains pat s = true ↔ ∃ a b, s = a ++ pat ++ b := by
  constructor
  · intro h
    obtain ⟨⟨pre, post⟩, hpr⟩ := Option.isSome_iff_exists.mp h
    exact ⟨pre, post, firstSplit_sound pat s pre post hpr⟩
  · rintro ⟨a, b, rfl⟩
    exact firstSplit_complete pat a b

/-- Python `s.split(pat)[0]`: everything before the first occurrence of
`pat`, or all of `s` when `pat` does not occur (Python split then returns
the one-element list `[s]`, so index 0 is `s`). -/
def splitHead (pat s : List Char) : List Char :=
  match firstSplit pat s with
  | some pr => pr.1
  | none => s

/-- Python `s.split(pat)[1]`: the segment between the first and second
occurrence of `pat` (up to the end when there is no second occurrence);
`none` models the `IndexError` raised when `pat` does not occur at all. -/
def splitSecond (pat s : List Char) : Option (List Char) :=
  (firstSplit pat s).map (fun pr => splitHead pat pr.2)

/-- Python `s.strip()`: drop leading and trailing whitespace. -/
def pyStrip (s : List Char) : List Char :=
  ((s.dropWhile Char.isWhitespace).reverse.dropWhile Char.isWhitespace).reverse

/-- The pattern `cid=` searched for in creator links. -/
def cidPat : List Char := "cid=".data

/-- The separator `&` used to cut the creator id out of the link. -/
def ampPat : List Char := "&".data

/-- Embeds `link.split("cid=")[1].split("&")[0]` (src/app0.1.py line 481);
`none` models the `IndexError` caught at line 483. -/
def extractCid (link : List Char) : Option (List Char) :=
  (splitSecond cidPat link).map (splitHead ampPat)

/-- The id selection the spec describes (section 4.1): the substring after
the FIRST `cid=` and before the NEXT `&` (or the end of the string).
Defined from the spec words, to be compared with `extractCid`. -/
def specExtract (link : List Char) : Option (List Char) :=
  (firstSplit cidPat link).map (fun pr => splitHead ampPat pr.2)

theorem extractCid_isSome_of_contains (link : List Char)
    (h : strContains cidPat link = true) : (extractCid link).isSome = true := by
  unfold strContains at h
  unfold extractCid splitSecond
  cases hfs : firstSplit cidPat link with
  | none => rw [hfs] at h; exact absurd h (by simp)
  | some pr => simp

theorem extractCid_eq_specExtract_of_single (link pre post : List Char)
    (h : firstSplit cidPat link = some (pre, post))
    (hsingle : firstSplit cidPat post = none) :
    extractCid link = specExtract link := by
  unfold extractCid specExtract splitSecond
  rw [h]
  simp only [Option.map_some']
  have : splitHead cidPat post = post := by unfold splitHead; rw [hsingle]
  rw [this]

/-- A raw sheet cell.  The Google Sheets values API delivers strings, but
the row loop in the source explicitly type-cases on `bool` and `str`
(src/app0.1.py lines 473-476), so both shapes are modelled. -/
inductive Cell
  | str (s : List Char)
  | bool (b : Bool)
deriving DecidableEq, Repr

/-- One queue entry, as appended at src/app0.1.py line 482:
the 1-indexed physical sheet row and the extracted creator id. -/
structure Creator where
  row : Nat
  cid : List Char
deriving DecidableEq, Repr

instance : Inhabited Creator := ⟨⟨0, []⟩⟩

/-- Failure modes of the queue build: fewer than two rows of sheet data
(line 439), header too narrow (line 450), or the `TypeError` Python would
raise at `"cid=" in link` (line 479) when the link cell is a boolean. -/
inductive BuildErr
  | noData
  | columnSchema
  | typeErr
deriving DecidableEq, Repr

/-- The link field of a row: `''` when the row is shorter than the link
column (lines 467-469); a boolean cell makes the later membership test
`"cid=" in link` raise `TypeError`. -/
def linkOf (row : List Cell) (lc : Nat) : Except BuildErr (List Char) :=
  match row.getD lc (Cell.str []) with
  | Cell.str s => Except.ok s
  | Cell.bool _ => Except.error BuildErr.typeErr

/-- The raw approached value of a row, `''` when the row is short
(lines 462-464). -/
def apprOf (row : List Cell) (ac : Nat) : Cell :=
  row.getD ac (Cell.str [])

/-- The `is_approached` computation of lines 472-476: a boolean cell is
taken as is; a string counts as approached iff, stripped and upper-cased,
it equals `TRUE`. -/
def isApproachedCell : Cell → Bool
  | Cell.bool b => b
  | Cell.str s => (pyStrip s).map Char.toUpper == "TRUE".data

/-- The row loop of src/app0.1.py lines 460-484 over the data rows
(everything after the header), carrying the index offset `i` so that the
recorded sheet row is `i + 2`.  Returns the queue and the list of rows
reported with a parse warning (line 484). -/
def buildCreators (lc ac i : Nat) : List (List Cell) → Except BuildErr (List Creator × List Nat)
  | [] => Except.ok ([], [])
  | row :: rest =>
    match linkOf row lc with
    | Except.error e => Except.error e
    | Except.ok lk =>
      match buildCreators lc ac (i + 1) rest with
      | Except.error e => Except.error e
      | Except.ok (crs, warns) =>
        if strContains cidPat lk && !(isApproachedCell (apprOf row ac)) then
          match extractCid lk with
          | some cid => Except.ok (⟨i + 2, cid⟩ :: crs, warns)
          | none => Except.ok (crs, (i + 2) :: warns)
        else Except.ok (crs, warns)

/-- The whole queue build as run by the start handler: the no-data check of
line 439 followed by the header-width check of line 450 and the row loop. -/
def build (rows : List (List Cell)) (lc ac : Nat) : Except BuildErr (List Creator × List Nat) :=
  match rows with
  | [] => Except.error BuildErr.noData
  | header :: dataRows =>
    if dataRows.isEmpty then Except.error BuildErr.noData
    else if header.length ≤ lc ∨ header.length ≤ ac then Except.error BuildErr.columnSchema
    else buildCreators lc ac 0 dataRows

/-- The queue entry a single data row contributes, if any. -/
def rowTarget (lc ac i : Nat) (row : List Cell) : Option Creator :=
  match linkOf row lc with
  | Except.error _ => none
  | Except.ok lk =>
    if strContains cidPat lk && !(isApproachedCell (apprOf row ac)) then
      (extractCid lk).map (fun cid => ⟨i + 2, cid⟩)
    else none

/-- Row-by-row restatement of the queue the loop produces. -/
def queueSpec (lc ac i : Nat) : List (List Cell) → List Creator
  | [] => []
  | row :: rest =>
    match rowTarget lc ac i row with
    | some t => t :: queueSpec lc ac (i + 1) rest
    | none => queueSpec lc ac (i + 1) rest


theorem buildCreators_ok_queue (lc ac i : Nat) (rows : List (List Cell))
    (q : List Creator) (w : List Nat)
    (h : buildCreators lc ac i rows = Except.ok (q, w)) :
    q = queueSpec lc ac i rows := by
  induction rows generalizing i q w with
  | nil =>
    simp only [buildCreators, Except.ok.injEq, Prod.mk.injEq] at h
    rw [queueSpec, h.1]
  | cons row rest ih =>
    cases hlk : linkOf row lc with
    | error e => simp only [buildCreators, hlk] at h; exact absurd h (by simp)
    | ok lk =>
      cases hrec : buildCreators lc ac (i + 1) rest with
      | error e => simp only [buildCreators, hlk, hrec] at h; exact absurd h (by simp)
      | ok p =>
        simp only [buildCreators, hlk, hrec] at h
        rw [queueSpec]
        simp only [rowTarget, hlk]
        by_cases hcond : (strContains cidPat lk && !(isApproachedCell (apprOf row ac))) = true
        · rw [if_pos hcond] at h
          rw [if_pos hcond]
          cases hext : extractCid lk with
          | some cid =>
            simp only [hext, Except.ok.injEq, Prod.mk.injEq] at h
            rw [← h.1, ih (i + 1) p.1 p.2 (by rw [hrec])]
            rfl
          | none =>
            simp only [hext, Except.ok.injEq, Prod.mk.injEq] at h
            rw [← h.1]
            exact ih (i + 1) p.1 p.2 (by rw [hrec])
        · rw [if_neg hcond] at h
          rw [if_neg hcond]
          simp only [Except.ok.injEq, Prod.mk.injEq] at h
          show q = queueSpec lc ac (i + 1) rest
          rw [← h.1]
          exact ih (i + 1) p.1 p.2 (by rw [hrec])

theorem buildCreators_ok_warns (lc ac i : Nat) (rows : List (List Cell))
    (q : List Creator) (w : List Nat)
    (h : buildCreators lc ac i rows = Except.ok (q, w)) : w = [] := by
  induction rows generalizing i q w with
  | nil =>
    simp only [buildCreators, Except.ok.injEq, Prod.mk.injEq] at h
    exact h.2.symm
  | cons row rest ih =>
    cases hlk : linkOf row lc with
    | error e => simp only [buildCreators, hlk] at h; exact absurd h (by simp)
    | ok lk =>
      cases hrec : buildCreators lc ac (i + 1) rest with
      | error e => simp only [buildCreators, hlk, hrec] at h; exact absurd h (by simp)
      | ok p =>
        simp only [buildCreators, hlk, hrec] at h
        have hw : p.2 = [] := ih (i + 1) p.1 p.2 (by rw [hrec])
        by_cases hcond : (strContains cidPat lk && !(isApproachedCell (apprOf row ac))) = true
        · rw [if_pos hcond] at h
          cases hext : extractCid lk with
          | some cid =>
            simp only [hext, Except.ok.injEq, Prod.mk.injEq] at h
            rw [← h.2, hw]
          | none =>
            exfalso
            have hcontains : strContains cidPat lk = true := by
              revert hcond; cases strContains cidPat lk <;> simp
            have hsome := extractCid_isSome_of_contains lk hcontains
            rw [hext] at hsome
            exact absurd hsome (by simp)
        · rw [if_neg hcond] at h
          simp only [Except.ok.injEq, Prod.mk.injEq] at h
          rw [← h.2, hw]

theorem rowTarget_row_eq (lc ac i : Nat) (row : List Cell) (t : Creator)
    (h : rowTarget lc ac i row = some t) : t.row = i + 2 := by
  cases hlk : linkOf row lc with
  | error e => simp only [rowTarget, hlk] at h; exact absurd h (by simp)
  | ok lk =>
    simp only [rowTarget, hlk] at h
    split at h
    · cases hext : extractCid lk with
      | some cid =>
        rw [hext] at h
        simp only [Option.map_some', Option.some.injEq] at h
        rw [← h]
      | none =>
        rw [hext] at h
        exact absurd h (by simp)
    · exact absurd h (by simp)

theorem queueSpec_row_lb (lc ac i : Nat) (rows : List (List Cell)) (t : Creator)
    (h : t ∈ queueSpec lc ac i rows) : i + 2 ≤ t.row := by
  induction rows generalizing i with
  | nil => simp only [queueSpec] at h; exact absurd h (List.not_mem_nil t)
  | cons row rest ih =>
    cases ht : rowTarget lc ac i row with
    | some t0 =>
      simp only [queueSpec, ht] at h
      rcases List.mem_cons.mp h with rfl | hmem
      · rw [rowTarget_row_eq lc ac i row t ht]
      · have := ih (i + 1) hmem
        omega
    | none =>
      simp only [queueSpec, ht] at h
      have := ih (i + 1) h
      omega

theorem queueSpec_sorted (lc ac i : Nat) (rows : List (List Cell)) :
    ((queueSpec lc ac i rows).map Creator.row).Pairwise (· < ·) := by
  induction rows generalizing i with
  | nil => rw [queueSpec]; exact List.Pairwise.nil
  | cons row rest ih =>
    rw [queueSpec]
    cases ht : rowTarget lc ac i row with
    | some t0 =>
      rw [List.map_cons, List.pairwise_cons]
      constructor
      · intro b hb
        obtain ⟨t, htmem, rfl⟩ := List.mem_map.mp hb
        have h1 := queueSpec_row_lb lc ac (i + 1) rest t htmem
        have h2 := rowTarget_row_eq lc ac i row t0 ht
        omega
      · exact ih (i + 1)
    | none => exact ih (i + 1)

theorem queueSpec_row_mem (lc ac i : Nat) (rows : List (List Cell)) (j : Nat)
    (hj : j < rows.length) :
    (∃ cid, (⟨i + j + 2, cid⟩ : Creator) ∈ queueSpec lc ac i rows) ↔
      (rowTarget lc ac (i + j) (rows.get ⟨j, hj⟩)).isSome = true := by
  induction rows generalizing i j with
  | nil => exact absurd hj (by simp)
  | cons row rest ih =>
    cases j with
    | zero =>
      show (∃ cid, (⟨i + 2, cid⟩ : Creator) ∈ queueSpec lc ac i (row :: rest)) ↔
        (rowTarget lc ac i row).isSome = true
      cases ht : rowTarget lc ac i row with
      | some t0 =>
        have hrow := rowTarget_row_eq lc ac i row t0 ht
        simp only [queueSpec, ht, Option.isSome_some]
        constructor
        · intro _; trivial
        · intro _
          refine ⟨t0.cid, ?_⟩
          have heq : (⟨i + 2, t0.cid⟩ : Creator) = t0 := by rw [← hrow]
          rw [heq]
          exact List.mem_cons_self t0 _
      | none =>
        simp only [queueSpec, ht, Option.isSome_none]
        constructor
        · rintro ⟨cid, hmem⟩
          have hlb := queueSpec_row_lb lc ac (i + 1) rest ⟨i + 2, cid⟩ hmem
          have hlb2 : i + 1 + 2 ≤ i + 2 := hlb
          omega
        · intro hfalse; exact absurd hfalse (by simp)
    | succ k =>
      have hk : k < rest.length := Nat.lt_of_succ_lt_succ hj
      show (∃ cid, (⟨i + (k + 1) + 2, cid⟩ : Creator) ∈ queueSpec lc ac i (row :: rest)) ↔
        (rowTarget lc ac (i + (k + 1)) (rest.get ⟨k, hk⟩)).isSome = true
      have harith : i + (k + 1) = i + 1 + k := by omega
      rw [harith, ← ih (i + 1) k hk]
      cases ht : rowTarget lc ac i row with
      | some t0 =>
        have hrow := rowTarget_row_eq lc ac i row t0 ht
        obtain ⟨tr, tc⟩ := t0
        have hrow2 : tr = i + 2 := hrow
        simp only [queueSpec, ht, List.mem_cons]
        constructor
        · rintro ⟨cid, heq | hmem⟩
          · exfalso
            simp only [Creator.mk.injEq] at heq
            omega
          · exact ⟨cid, hmem⟩
        · rintro ⟨cid, hmem⟩
          exact ⟨cid, Or.inr hmem⟩
      | none =>
        simp only [queueSpec, ht]

/-- The approved test as the spec words it (section 4.1): true iff the raw
value is boolean true, or a string equal, case-insensitively after
trimming, to `TRUE`.  Stated from the spec, to compare with the code's
`isApproachedCell`. -/
def specApproved : Cell → Bool
  | Cell.bool b => b
  | Cell.str s => (pyStrip s).map Char.toUpper == "TRUE".data

theorem specApproved_eq (c : Cell) : specApproved c = isApproachedCell c := by
  cases c <;> rfl

/-- The eligibility condition as the spec words it: the link field contains
the substring `cid=` and the row is not approved. -/
def specEligible (lc ac : Nat) (row : List Cell) : Prop :=
  (∃ s, linkOf row lc = Except.ok s ∧ ∃ a b, s = a ++ cidPat ++ b) ∧
    specApproved (apprOf row ac) = false

theorem rowTarget_isSome_iff (lc ac i : Nat) (row : List Cell) :
    (rowTarget lc ac i row).isSome = true ↔ specEligible lc ac row := by
  cases hlk : linkOf row lc with
  | error e =>
    simp only [rowTarget, hlk, Option.isSome_none]
    constructor
    · intro hfalse; exact absurd hfalse (by simp)
    · rintro ⟨⟨s, hs, _⟩, _⟩
      rw [hlk] at hs
      exact absurd hs (by simp)
  | ok lk =>
    simp only [rowTarget, hlk]
    cases hc : strContains cidPat lk with
    | true =>
      cases ha : isApproachedCell (apprOf row ac) with
      | false =>
        rw [if_pos (show ((true && !false) = true) from rfl)]
        have hsome := extractCid_isSome_of_contains lk hc
        constructor
        · intro _
          refine ⟨⟨lk, hlk, (strContains_iff cidPat lk).mp hc⟩, ?_⟩
          rw [specApproved_eq]; exact ha
        · intro _
          cases hext : extractCid lk with
          | some cid => simp
          | none => rw [hext] at hsome; exact absurd hsome (by simp)
      | true =>
        rw [if_neg (show ¬((true && !true) = true) by simp)]
        simp only [Option.isSome_none]
        constructor
        · intro hfalse; exact absurd hfalse (by simp)
        · rintro ⟨_, happr⟩
          rw [specApproved_eq, ha] at happr
          exact absurd happr (by simp)
    | false =>
      rw [if_neg (show ¬((false && !(isApproachedCell (apprOf row ac))) = true) by simp)]
      simp only [Option.isSome_none]
      constructor
      · intro hfalse; exact absurd hfalse (by simp)
      · rintro ⟨⟨s, hs, a, b, hsub⟩, _⟩
        rw [hlk] at hs
        have hls : lk = s := Except.ok.inj hs
        have hcc : strContains cidPat lk = true := by
          rw [strContains_iff]
          exact ⟨a, b, by rw [hls, hsub]⟩
        rw [hc] at hcc
        exact absurd hcc (by simp)

theorem linkOf_error (row : List Cell) (lc : Nat) (e : BuildErr)
    (h : linkOf row lc = Except.error e) : e = BuildErr.typeErr := by
  cases hcell : row.getD lc (Cell.str []) with
  | str s => simp only [linkOf, hcell] at h; exact absurd h (by simp)
  | bool b =>
    simp only [linkOf, hcell, Except.error.injEq] at h
    exact h.symm

theorem buildCreators_error_typeErr (lc ac i : Nat) (rows : List (List Cell)) (e : BuildErr)
    (h : buildCreators lc ac i rows = Except.error e) : e = BuildErr.typeErr := by
  induction rows generalizing i e with
  | nil => simp only [buildCreators] at h; exact absurd h (by simp)
  | cons row rest ih =>
    cases hlk : linkOf row lc with
    | error e2 =>
      simp only [buildCreators, hlk, Except.error.injEq] at h
      rw [← h]
      exact linkOf_error row lc e2 hlk
    | ok lk =>
      cases hrec : buildCreators lc ac (i + 1) rest with
      | error e2 =>
        simp only [buildCreators, hlk, hrec, Except.error.injEq] at h
        rw [← h]
        exact ih (i + 1) e2 hrec
      | ok p =>
        simp only [buildCreators, hlk, hrec] at h
        split at h
        · cases hext : extractCid lk with
          | some cid => simp only [hext] at h; exact absurd h (by simp)
          | none => simp only [hext] at h; exact absurd h (by simp)
        · exact absurd h (by simp)

theorem build_columnSchema_iff (header : List Cell) (dataRows : List (List Cell)) (lc ac : Nat)
    (hd : dataRows ≠ []) :
    (build (header :: dataRows) lc ac = Except.error BuildErr.columnSchema ↔
      header.length ≤ max lc ac) := by
  cases dataRows with
  | nil => exact absurd rfl hd
  | cons r rs =>
    simp only [build, List.isEmpty_cons, Bool.false_eq_true, if_false]
    by_cases hw : header.length ≤ lc ∨ header.length ≤ ac
    · rw [if_pos hw]
      constructor
      · intro _; exact le_max_iff.mpr hw
      · intro _; rfl
    · rw [if_neg hw]
      constructor
      · intro hb
        have := buildCreators_error_typeErr lc ac 0 (r :: rs) BuildErr.columnSchema hb
        exact BuildErr.noConfusion this
      · intro hmax
        exact absurd (le_max_iff.mp hmax) hw

instance {e a : Type} [DecidableEq e] [DecidableEq a] : DecidableEq (Except e a) := fun x y =>
  match x, y with
  | Except.ok u, Except.ok v =>
    if h : u = v then Decidable.isTrue (by rw [h])
    else Decidable.isFalse (fun hc => h (Except.ok.inj hc))
  | Except.error u, Except.error v =>
    if h : u = v then Decidable.isTrue (by rw [h])
    else Decidable.isFalse (fun hc => h (Except.error.inj hc))
  | Except.ok _, Except.error _ => Decidable.isFalse (fun hc => Except.noConfusion hc)
  | Except.error _, Except.ok _ => Decidable.isFalse (fun hc => Except.noConfusion hc)

/-- The session states named by the specification (section 3). -/
inductive SpecState
  | Idle
  | Running
  | Stopped
  | Completed
  | Error
deriving DecidableEq, Repr

/-- The distinct `last_status` messages the source can leave behind, one
tag per `st.session_state.last_status` assignment site that can be the
final assignment of a rerun. -/
inductive StatusTag
  | ready
  | stoppedByUser
  | validationNoContent
  | validationSheet
  | validationStore
  | readingSheet
  | noDataWarn
  | schemaError
  | noCreators
  | foundCreators
  | driverInactive
  | movingNext
  | completed
  | sheetUpdateFailed
  | timeoutError
  | elementNotFound
  | webDriverError
  | unexpectedError
deriving DecidableEq, Repr

/-- The Streamlit session state the automation uses: the creators queue,
the cursor `current_creator_index`, the `automation_running` flag, whether
a Selenium driver handle is held (`st.session_state.driver`), the saved
temporary image paths, and the last status message. -/
structure SessionState where
  creators : List Creator
  cursor : Nat
  running : Bool
  driver : Bool
  uploadedImagePaths : List (List Char)
  lastStatus : StatusTag
deriving DecidableEq, Repr

/-- The spec-level state of a session state.  While `automation_running`
is true the session is Running; otherwise the last status message tells
whether the episode ended by user stop, by completion, or by an abort. -/
def SessionState.phase (s : SessionState) : SpecState :=
  if s.running then SpecState.Running
  else
    match s.lastStatus with
    | StatusTag.stoppedByUser => SpecState.Stopped
    | StatusTag.completed => SpecState.Completed
    | StatusTag.timeoutError => SpecState.Error
    | StatusTag.elementNotFound => SpecState.Error
    | StatusTag.webDriverError => SpecState.Error
    | StatusTag.unexpectedError => SpecState.Error
    | StatusTag.sheetUpdateFailed => SpecState.Error
    | StatusTag.driverInactive => SpecState.Error
    | _ => SpecState.Idle

/-- The inputs read by the start-button handler: the raw message texts,
whether a sheet id and sheet name are available, and the store id. -/
structure StartInputs where
  messages : List (List Char)
  sheetOk : Bool
  storeId : List Char
deriving DecidableEq, Repr

/-- `[msg.strip() for msg in st.session_state.custom_messages if msg.strip()]`
(src/app0.1.py line 412). -/
def msgsOf (inp : StartInputs) : List (List Char) :=
  (inp.messages.map pyStrip).filter (fun m => !m.isEmpty)

/-- The stop-button handler (src/app0.1.py lines 400-403): clears the
running flag and records the stop message; queue and cursor untouched. -/
def stopSession (s : SessionState) : SessionState :=
  { s with running := false, lastStatus := StatusTag.stoppedByUser }

/-- The start-button handler (src/app0.1.py lines 406-494): input
validation, then — only when the creators list is empty or fully consumed —
a fresh read of the sheet (the `rows` argument, the caches having been
cleared at line 408) and a queue rebuild; otherwise the existing queue and
cursor are kept.  A `typeErr` from the row loop models the uncaught Python
`TypeError`: the script run dies after `automation_running = True` and
`current_creator_index = 0` were already assigned. -/
def startSession (s : SessionState) (inp : StartInputs) (rows : List (List Cell)) :
    SessionState :=
  if (msgsOf inp).isEmpty && s.uploadedImagePaths.isEmpty then
    { s with running := false, lastStatus := StatusTag.validationNoContent }
  else if !inp.sheetOk then
    { s with running := false, lastStatus := StatusTag.validationSheet }
  else if (pyStrip inp.storeId).isEmpty then
    { s with running := false, lastStatus := StatusTag.validationStore }
  else
    if s.creators.isEmpty || s.creators.length ≤ s.cursor then
      match build rows 4 7 with
      | Except.error BuildErr.noData =>
        { s with running := false, cursor := 0, creators := [],
                 lastStatus := StatusTag.noDataWarn }
      | Except.error BuildErr.columnSchema =>
        { s with running := false, cursor := 0, creators := [],
                 lastStatus := StatusTag.schemaError }
      | Except.error BuildErr.typeErr =>
        { s with running := true, cursor := 0, lastStatus := StatusTag.readingSheet }
      | Except.ok (q, _) =>
        if q.isEmpty then
          { s with running := false, cursor := 0, creators := [],
                   lastStatus := StatusTag.noCreators }
        else
          { s with running := true, cursor := 0, creators := q,
                   lastStatus := StatusTag.foundCreators }
    else { s with running := true }

/-- What the outside world did during one automation step: whether the
driver attach of line 516 succeeded, which exception (if any) the browser
interaction raised, and whether the sheet update of line 654 returned
success. -/
inductive StepFault
  | ok
  | composeTimeout
  | sessionLost
  | elementMissing
  | unexpected
  | attachTimeout
  | attachMissing
  | attachOther
  | dialogTimeout
deriving DecidableEq, Repr

structure StepIO where
  driverOk : Bool
  fault : StepFault
  writeOk : Bool
deriving DecidableEq, Repr

/-- Result of one automation rerun: the new session state, the sheet rows
written by `update_sheet_data` during the run (in call order), whether the
run reached the sheet update (all text blocks delivered — the Sent
outcome), the attachment paths delivered to the file input, and the
temporary files removed by the cleanup block. -/
structure StepResult where
  state : SessionState
  writes : List Nat
  sent : Bool
  sentImages : List (List Char)
  deletedTemp : List (List Char)
deriving DecidableEq, Repr

/-- The guard of the automation block (src/app0.1.py lines 502-503). -/
def stepGuard (s : SessionState) : Bool :=
  s.running && !s.creators.isEmpty && decide (s.cursor < s.creators.length)

/-- One execution of the automation block (src/app0.1.py lines 502-704)
on the target at the cursor.

Faults map to the source's handlers: `composeTimeout` is the outer
`except TimeoutException` (line 681), `sessionLost` the outer
`except WebDriverException` (line 691, which calls `close_selenium_driver`),
`elementMissing` the outer `except NoSuchElementException` (line 686),
`unexpected` the outer `except Exception` (line 697); `attachTimeout`,
`attachMissing` and `attachOther` are the inner handlers of lines 625-636
(caught and proceeding to the sheet update), and `dialogTimeout` the
innermost handler of line 615 (the attachments were already delivered).
Inner faults are only reachable when attachment paths are present; with no
paths the image block is skipped and they behave as the success path. -/
def runStep (s : SessionState) (io : StepIO) : StepResult :=
  if !(stepGuard s) then ⟨s, [], false, [], []⟩
  else
    let cr := s.creators.getD s.cursor default
    if !io.driverOk then
      ⟨{ s with driver := false, running := false,
                lastStatus := StatusTag.driverInactive }, [], false, [], []⟩
    else
      let s0 := { s with driver := true }
      match io.fault with
      | StepFault.composeTimeout =>
        ⟨{ s0 with running := false, lastStatus := StatusTag.timeoutError }, [], false, [], []⟩
      | StepFault.sessionLost =>
        ⟨{ s0 with running := false, driver := false,
                   lastStatus := StatusTag.webDriverError }, [], false, [], []⟩
      | StepFault.elementMissing =>
        ⟨{ s0 with running := false, lastStatus := StatusTag.elementNotFound }, [], false, [], []⟩
      | StepFault.unexpected =>
        ⟨{ s0 with running := false, lastStatus := StatusTag.unexpectedError }, [], false, [], []⟩
      | f =>
        let imgs := s.uploadedImagePaths
        let delivered :=
          if !imgs.isEmpty && (f == StepFault.ok || f == StepFault.dialogTimeout) then imgs
          else []
        let s1 := if imgs.isEmpty then s0 else { s0 with uploadedImagePaths := [] }
        if io.writeOk then
          if s.cursor + 1 < s.creators.length then
            ⟨{ s1 with cursor := s.cursor + 1, lastStatus := StatusTag.movingNext },
              [cr.row], true, delivered, imgs⟩
          else
            ⟨{ s1 with creators := [], cursor := 0, running := false,
                       lastStatus := StatusTag.completed },
              [cr.row], true, delivered, imgs⟩
        else
          ⟨{ s1 with running := false, lastStatus := StatusTag.sheetUpdateFailed },
            [cr.row], true, delivered, imgs⟩

/-- One full script rerun while the automation chain is active: the upload
widget handling of src/app0.1.py lines 349-370 runs first and re-saves the
user's still-uploaded files into `uploaded_image_paths` (an empty upload
list clears it), then the automation block executes. -/
def rerunStep (userUploads : List (List Char)) (io : StepIO) (s : SessionState) : StepResult :=
  runStep { s with uploadedImagePaths := userUploads } io

/-- Concrete fixtures: the end-to-end example of spec section 8 (header of
width 8, one unapproached row with `cid=123`, one approved row with
`cid=456`). -/
def tHeader : List Cell :=
  [Cell.str "A".data, Cell.str [], Cell.str [], Cell.str [],
   Cell.str [], Cell.str [], Cell.str [], Cell.str []]

def tRow1 : List Cell :=
  [Cell.str [], Cell.str [], Cell.str [], Cell.str [],
   Cell.str "x?cid=123&y=1".data, Cell.str [], Cell.str [], Cell.str "FALSE".data]

def tRow2 : List Cell :=
  [Cell.str [], Cell.str [], Cell.str [], Cell.str [],
   Cell.str "x?cid=456&y=1".data, Cell.str [], Cell.str [], Cell.str "TRUE".data]

/-- A Running session with a freshly built two-target queue. -/
def tSt : SessionState :=
  { creators := [⟨2, "123".data⟩, ⟨3, "456".data⟩], cursor := 0, running := true,
    driver := true, uploadedImagePaths := [], lastStatus := StatusTag.foundCreators }

/-- A link in which `cid=` occurs twice before the first separator. -/
def cexLink : List Char := "x?cid=1cid=2&y".data

def cexRow : List Cell :=
  [Cell.str [], Cell.str [], Cell.str [], Cell.str [],
   Cell.str cexLink, Cell.str [], Cell.str [], Cell.str "FALSE".data]

theorem build_ok_warns (rows : List (List Cell)) (lc ac : Nat) (q : List Creator)
    (w : List Nat) (h : build rows lc ac = Except.ok (q, w)) : w = [] := by
  cases rows with
  | nil => simp only [build] at h; exact absurd h (by simp)
  | cons header dataRows =>
    simp only [build] at h
    split at h
    · exact absurd h (by simp)
    · split at h
      · exact absurd h (by simp)
      · exact buildCreators_ok_warns lc ac 0 dataRows q w h

/-- Claim C4: for every input row after the header, the built queue
contains a target for that row (its sheet row number is `j + 2` for the
`j`-th data row) iff the row's link field contains the substring `cid=`
and its approved value is false — approved being true exactly when the raw
value is boolean true or a string whose trimmed, case-insensitive form is
`TRUE` — and the queue preserves original row order (row numbers strictly
increasing). -/
theorem C4_queue_iff (rows : List (List Cell)) (lc ac : Nat)
    (header : List Cell) (dataRows : List (List Cell)) (q : List Creator) (w : List Nat)
    (hrows : rows = header :: dataRows)
    (h : build rows lc ac = Except.ok (q, w)) :
    (∀ j (hj : j < dataRows.length),
        (∃ cid, (⟨j + 2, cid⟩ : Creator) ∈ q) ↔ specEligible lc ac (dataRows.get ⟨j, hj⟩))
      ∧ (q.map Creator.row).Pairwise (· < ·) := by
  subst hrows
  simp only [build] at h
  split at h
  · exact absurd h (by simp)
  · split at h
    · exact absurd h (by simp)
    · have hq := buildCreators_ok_queue lc ac 0 dataRows q w h
      constructor
      · intro j hj
        have hmem := queueSpec_row_mem lc ac 0 dataRows j hj
        have hzero : (0 : Nat) + j = j := by omega
        rw [hzero] at hmem
        rw [hq, hmem]
        exact rowTarget_isSome_iff lc ac j (dataRows.get ⟨j, hj⟩)
      · rw [hq]
        exact queueSpec_sorted lc ac 0 dataRows

/-- Witness for C4 on the end-to-end fixture of spec section 8: the queue
is exactly the single target for the unapproached `cid=123` row. -/
theorem C4_queue_iff_witness :
    (∀ j (hj : j < ([tRow1, tRow2] : List (List Cell)).length),
        (∃ cid, (⟨j + 2, cid⟩ : Creator) ∈ ([⟨2, "123".data⟩] : List Creator)) ↔
          specEligible 4 7 (([tRow1, tRow2] : List (List Cell)).get ⟨j, hj⟩))
      ∧ (([⟨2, "123".data⟩] : List Creator).map Creator.row).Pairwise (· < ·) :=
  C4_queue_iff [tHeader, tRow1, tRow2] 4 7 tHeader [tRow1, tRow2]
    [⟨2, "123".data⟩] [] rfl (by decide)

/-- Counterexample to claim C5 as stated: an input consisting only of a
header row of width 1 (which is at most `max 4 7`) makes the build fail
with the no-data error, not with `ColumnSchemaError`. -/
theorem C5_counterexample :
    ([Cell.str []] : List Cell).length ≤ max 4 7
      ∧ build [[Cell.str []]] 4 7 = Except.error BuildErr.noData
      ∧ BuildErr.noData ≠ BuildErr.columnSchema := by decide

/-- Claim C5 (amended): for every input with a header row AND at least one
data row, the build fails with `ColumnSchemaError` iff the header width is
at most `max linkColumn approvedColumn` (so for wider headers this error
is never raised); and when the schema error occurs on the production
columns 4 and 7, a validated start leaves the session not running with an
empty queue. -/
theorem C5_schema_error (header : List Cell) (dataRows : List (List Cell)) (lc ac : Nat)
    (hd : dataRows ≠ []) :
    (build (header :: dataRows) lc ac = Except.error BuildErr.columnSchema ↔
        header.length ≤ max lc ac)
    ∧ (∀ (s : SessionState) (inp : StartInputs),
        ((msgsOf inp).isEmpty && s.uploadedImagePaths.isEmpty) = false →
        inp.sheetOk = true →
        (pyStrip inp.storeId).isEmpty = false →
        (s.creators.isEmpty || decide (s.creators.length ≤ s.cursor)) = true →
        build (header :: dataRows) 4 7 = Except.error BuildErr.columnSchema →
        (startSession s inp (header :: dataRows)).running = false
          ∧ (startSession s inp (header :: dataRows)).creators = []) := by
  constructor
  · exact build_columnSchema_iff header dataRows lc ac hd
  · intro s inp hv1 hv2 hv3 hcond hbuild
    simp only [startSession, hv1, hv2, hv3, hcond, hbuild, Bool.false_eq_true, if_false,
      Bool.not_true, if_true]
    constructor <;> trivial

/-- Witness for C5 (amended) at a width-1 header with one data row. -/
theorem C5_schema_error_witness :
    (build ([Cell.str []] :: [tRow1]) 4 7 = Except.error BuildErr.columnSchema ↔
        ([Cell.str []] : List Cell).length ≤ max 4 7)
    ∧ (∀ (s : SessionState) (inp : StartInputs),
        ((msgsOf inp).isEmpty && s.uploadedImagePaths.isEmpty) = false →
        inp.sheetOk = true →
        (pyStrip inp.storeId).isEmpty = false →
        (s.creators.isEmpty || decide (s.creators.length ≤ s.cursor)) = true →
        build ([Cell.str []] :: [tRow1]) 4 7 = Except.error BuildErr.columnSchema →
        (startSession s inp ([Cell.str []] :: [tRow1])).running = false
          ∧ (startSession s inp ([Cell.str []] :: [tRow1])).creators = []) :=
  C5_schema_error [Cell.str []] [tRow1] 4 7 (by decide)

/-- Counterexample to claim C6 as stated: on the eligible row whose link is
`x?cid=1cid=2&y`, the code enqueues the id `1` — the text between the first
and second `cid=` — while the substring after the first `cid=` and before
the next `&` is `1cid=2`. -/
theorem C6_counterexample :
    build [tHeader, cexRow] 4 7 = Except.ok ([⟨2, "1".data⟩], [])
      ∧ specExtract cexLink = some ("1cid=2".data)
      ∧ ("1".data : List Char) ≠ ("1cid=2".data : List Char) := by decide

/-- Claim C6 (amended): for every link containing `cid=`, extraction always
succeeds (so the parse-warning path cannot fire and the build is never
aborted: any successful build carries an empty warning list); and whenever
`cid=` occurs only once in the link, the extracted id is exactly the
substring after that `cid=` and before the next `&` (or end of string) —
when `cid=` occurs again, the id is additionally truncated at the second
occurrence. -/
theorem C6_extract (link pre post : List Char)
    (hocc : firstSplit cidPat link = some (pre, post)) :
    (extractCid link).isSome = true
    ∧ (firstSplit cidPat post = none → extractCid link = specExtract link)
    ∧ (∀ (rows : List (List Cell)) (lc ac : Nat) (q : List Creator) (w : List Nat),
        build rows lc ac = Except.ok (q, w) → w = []) := by
  refine ⟨?_, ?_, ?_⟩
  · apply extractCid_isSome_of_contains
    unfold strContains
    rw [hocc]
    rfl
  · intro hsingle
    exact extractCid_eq_specExtract_of_single link pre post hocc hsingle
  · intro rows lc ac q w h
    exact build_ok_warns rows lc ac q w h

/-- Witness for C6 (amended) at the link `a?cid=77&z`, where `cid=` occurs
once and the extracted id is `77`. -/
theorem C6_extract_witness :
    (extractCid ("a?cid=77&z".data)).isSome = true
    ∧ (firstSplit cidPat ("77&z".data) = none →
        extractCid ("a?cid=77&z".data) = specExtract ("a?cid=77&z".data))
    ∧ (∀ (rows : List (List Cell)) (lc ac : Nat) (q : List Creator) (w : List Nat),
        build rows lc ac = Except.ok (q, w) → w = []) :=
  C6_extract ("a?cid=77&z".data) ("a?".data) ("77&z".data) (by decide)

/-- Counterexample to claim C1 as stated: on a Running two-target session,
a compose-surface timeout on the target at cursor 0 does NOT advance the
cursor to 1 and does NOT leave the session running — the outer timeout
handler stops the automation. -/
theorem C1_counterexample :
    (runStep tSt ⟨true, StepFault.composeTimeout, true⟩).state.cursor = 0
    ∧ (runStep tSt ⟨true, StepFault.composeTimeout, true⟩).state.running = false
    ∧ ¬((runStep tSt ⟨true, StepFault.composeTimeout, true⟩).state.running = true
        ∧ (runStep tSt ⟨true, StepFault.composeTimeout, true⟩).state.cursor = 0 + 1) := by
  decide

/-- Claim C1 (amended): for every Running session, a compose-surface
timeout while processing the target at the cursor is an abort, not a skip:
the Running episode terminates in the Error phase with the cursor
unchanged, the queue preserved, no outcome written, and the driver handle
retained. -/
theorem C1_timeout_aborts (s : SessionState) (io : StepIO)
    (hg : stepGuard s = true) (hd : io.driverOk = true)
    (hf : io.fault = StepFault.composeTimeout) :
    (runStep s io).state.running = false
    ∧ (runStep s io).state.phase = SpecState.Error
    ∧ (runStep s io).state.cursor = s.cursor
    ∧ (runStep s io).state.creators = s.creators
    ∧ (runStep s io).state.driver = true
    ∧ (runStep s io).writes = []
    ∧ (runStep s io).sent = false := by
  simp [runStep, hg, hd, hf, SessionState.phase]

/-- Witness for C1 (amended) at the concrete two-target session. -/
theorem C1_timeout_aborts_witness :
    (runStep tSt ⟨true, StepFault.composeTimeout, true⟩).state.running = false
    ∧ (runStep tSt ⟨true, StepFault.composeTimeout, true⟩).state.phase = SpecState.Error
    ∧ (runStep tSt ⟨true, StepFault.composeTimeout, true⟩).state.cursor = tSt.cursor
    ∧ (runStep tSt ⟨true, StepFault.composeTimeout, true⟩).state.creators = tSt.creators
    ∧ (runStep tSt ⟨true, StepFault.composeTimeout, true⟩).state.driver = true
    ∧ (runStep tSt ⟨true, StepFault.composeTimeout, true⟩).writes = []
    ∧ (runStep tSt ⟨true, StepFault.composeTimeout, true⟩).sent = false :=
  C1_timeout_aborts tSt ⟨true, StepFault.composeTimeout, true⟩ (by decide) rfl rfl

/-- Claim C7: for every Running session, losing browser-driver
connectivity while processing the target at cursor i transitions the
session to Error with the cursor unchanged at i, the queue preserved, and
the driver handle released. -/
theorem C7_session_lost (s : SessionState) (io : StepIO)
    (hg : stepGuard s = true) (hd : io.driverOk = true)
    (hf : io.fault = StepFault.sessionLost) :
    (runStep s io).state.phase = SpecState.Error
    ∧ (runStep s io).state.running = false
    ∧ (runStep s io).state.cursor = s.cursor
    ∧ (runStep s io).state.creators = s.creators
    ∧ (runStep s io).state.driver = false
    ∧ (runStep s io).writes = [] := by
  simp [runStep, hg, hd, hf, SessionState.phase]

/-- Witness for C7 at the concrete two-target session. -/
theorem C7_session_lost_witness :
    (runStep tSt ⟨true, StepFault.sessionLost, true⟩).state.phase = SpecState.Error
    ∧ (runStep tSt ⟨true, StepFault.sessionLost, true⟩).state.running = false
    ∧ (runStep tSt ⟨true, StepFault.sessionLost, true⟩).state.cursor = tSt.cursor
    ∧ (runStep tSt ⟨true, StepFault.sessionLost, true⟩).state.creators = tSt.creators
    ∧ (runStep tSt ⟨true, StepFault.sessionLost, true⟩).state.driver = false
    ∧ (runStep tSt ⟨true, StepFault.sessionLost, true⟩).writes = [] :=
  C7_session_lost tSt ⟨true, StepFault.sessionLost, true⟩ (by decide) rfl rfl

/-- Claim C2: for every processed target, the progress write happens
exactly once per Sent outcome and before any cursor movement: a Sent
outcome produces exactly the one write for the current target's row, a
non-Sent outcome produces no write, a failed write after a successful send
leaves the cursor unchanged and terminates the Running episode with the
distinct sheet-update-failure status, and any cursor advance (including
the completing one) implies the write succeeded. -/
theorem C2_write_before_advance (s : SessionState) (io : StepIO)
    (hg : stepGuard s = true) :
    ((runStep s io).sent = true →
        (runStep s io).writes = [(s.creators.getD s.cursor default).row])
    ∧ ((runStep s io).sent = false → (runStep s io).writes = [])
    ∧ ((runStep s io).sent = true → io.writeOk = false →
        (runStep s io).state.cursor = s.cursor
          ∧ (runStep s io).state.running = false
          ∧ (runStep s io).state.lastStatus = StatusTag.sheetUpdateFailed
          ∧ (runStep s io).state.phase = SpecState.Error)
    ∧ (((runStep s io).state.cursor = s.cursor + 1
          ∨ (runStep s io).state.lastStatus = StatusTag.completed) →
        io.writeOk = true ∧ (runStep s io).sent = true
          ∧ (runStep s io).writes = [(s.creators.getD s.cursor default).row]) := by
  obtain ⟨d, f, wr⟩ := io
  cases d <;> cases wr <;> cases f <;>
    by_cases himg : s.uploadedImagePaths.isEmpty = true <;>
    simp_all [runStep, stepGuard, SessionState.phase] <;>
    (try split_ifs) <;>
    (try simp_all)

/-- Witness for C2 at the concrete two-target session on the success path. -/
theorem C2_write_before_advance_witness :
    ((runStep tSt ⟨true, StepFault.ok, true⟩).sent = true →
        (runStep tSt ⟨true, StepFault.ok, true⟩).writes
          = [(tSt.creators.getD tSt.cursor default).row])
    ∧ ((runStep tSt ⟨true, StepFault.ok, true⟩).sent = false →
        (runStep tSt ⟨true, StepFault.ok, true⟩).writes = [])
    ∧ ((runStep tSt ⟨true, StepFault.ok, true⟩).sent = true →
        (true : Bool) = false →
        (runStep tSt ⟨true, StepFault.ok, true⟩).state.cursor = tSt.cursor
          ∧ (runStep tSt ⟨true, StepFault.ok, true⟩).state.running = false
          ∧ (runStep tSt ⟨true, StepFault.ok, true⟩).state.lastStatus
              = StatusTag.sheetUpdateFailed
          ∧ (runStep tSt ⟨true, StepFault.ok, true⟩).state.phase = SpecState.Error)
    ∧ (((runStep tSt ⟨true, StepFault.ok, true⟩).state.cursor = tSt.cursor + 1
          ∨ (runStep tSt ⟨true, StepFault.ok, true⟩).state.lastStatus = StatusTag.completed) →
        (true : Bool) = true ∧ (runStep tSt ⟨true, StepFault.ok, true⟩).sent = true
          ∧ (runStep tSt ⟨true, StepFault.ok, true⟩).writes
              = [(tSt.creators.getD tSt.cursor default).row]) :=
  C2_write_before_advance tSt ⟨true, StepFault.ok, true⟩ (by decide)

/-- A Running two-target session stopped-at position 1 and valid start
inputs, used as concrete resume fixtures. -/
def tStMid : SessionState := { tSt with cursor := 1 }

def tInp : StartInputs :=
  { messages := ["hi".data], sheetOk := true, storeId := "777".data }

/-- Claim C3: stopping a Running session at cursor K < len(queue) keeps the
queue and cursor; a subsequent validated Start resumes Running at cursor K
with the same queue, and its result does not depend on the store contents
at all (the store is not re-read, the queue not rebuilt). -/
theorem C3_stop_resume (s : SessionState) (inp : StartInputs)
    (rows rows2 : List (List Cell)) (K : Nat)
    (hcur : s.cursor = K) (hK : K < s.creators.length)
    (hv1 : ((msgsOf inp).isEmpty && s.uploadedImagePaths.isEmpty) = false)
    (hv2 : inp.sheetOk = true)
    (hv3 : (pyStrip inp.storeId).isEmpty = false) :
    (stopSession s).creators = s.creators
    ∧ (stopSession s).cursor = K
    ∧ (stopSession s).phase = SpecState.Stopped
    ∧ startSession (stopSession s) inp rows = startSession (stopSession s) inp rows2
    ∧ (startSession (stopSession s) inp rows).creators = s.creators
    ∧ (startSession (stopSession s) inp rows).cursor = K
    ∧ (startSession (stopSession s) inp rows).running = true
    ∧ (startSession (stopSession s) inp rows).phase = SpecState.Running := by
  have h1 : s.creators.isEmpty = false := by
    cases hcs : s.creators with
    | nil => rw [hcs] at hK; exact absurd hK (by simp)
    | cons a l => rfl
  have h2 : decide (s.creators.length ≤ s.cursor) = false := by
    rw [decide_eq_false_iff_not]
    omega
  have h3 : ¬(s.creators.length ≤ K) := by omega
  refine ⟨rfl, hcur, rfl, ?_, ?_, ?_, ?_, ?_⟩ <;>
    simp [startSession, stopSession, SessionState.phase, hv1, hv2, hv3, h1, h2, h3, hcur]

/-- Witness for C3: stop at cursor 1 of the two-target session, then start
with valid inputs; comparing a start fed the real sheet rows against one
fed an empty store shows the store is not consulted. -/
theorem C3_stop_resume_witness :
    (stopSession tStMid).creators = tStMid.creators
    ∧ (stopSession tStMid).cursor = 1
    ∧ (stopSession tStMid).phase = SpecState.Stopped
    ∧ startSession (stopSession tStMid) tInp [tHeader, tRow1, tRow2]
        = startSession (stopSession tStMid) tInp []
    ∧ (startSession (stopSession tStMid) tInp [tHeader, tRow1, tRow2]).creators
        = tStMid.creators
    ∧ (startSession (stopSession tStMid) tInp [tHeader, tRow1, tRow2]).cursor = 1
    ∧ (startSession (stopSession tStMid) tInp [tHeader, tRow1, tRow2]).running = true
    ∧ (startSession (stopSession tStMid) tInp [tHeader, tRow1, tRow2]).phase
        = SpecState.Running :=
  C3_stop_resume tStMid tInp [tHeader, tRow1, tRow2] [] 1 rfl (by decide)
    (by decide) rfl (by decide)

/-- A Running two-target session with one pending attachment. -/
def tStImg : SessionState := { tSt with uploadedImagePaths := ["img1.png".data] }

/-- Claim C8: when all text blocks were sent and an expected attachment UI
element (file input or confirmation dialog) is missing or times out, the
outcome is still Sent: the progress write happens for the current target's
row, the cursor advances, and (with further targets pending) the session
stays Running. -/
theorem C8_attach_degraded (s : SessionState) (io : StepIO)
    (hg : stepGuard s = true) (hd : io.driverOk = true)
    (hf : io.fault = StepFault.attachTimeout ∨ io.fault = StepFault.attachMissing
          ∨ io.fault = StepFault.attachOther ∨ io.fault = StepFault.dialogTimeout)
    (hw : io.writeOk = true) (hnext : s.cursor + 1 < s.creators.length) :
    (runStep s io).sent = true
    ∧ (runStep s io).writes = [(s.creators.getD s.cursor default).row]
    ∧ (runStep s io).state.cursor = s.cursor + 1
    ∧ (runStep s io).state.running = true
    ∧ (runStep s io).state.phase = SpecState.Running := by
  have hg2 := hg
  simp only [stepGuard, Bool.and_eq_true] at hg2
  have hrun : s.running = true := hg2.1.1
  by_cases himg : s.uploadedImagePaths.isEmpty = true <;>
    rcases hf with hf | hf | hf | hf <;>
    simp [runStep, hg, hd, hf, hw, hnext, himg, hrun, SessionState.phase]

/-- Witness for C8: attachment-input timeout on the first of two targets
with one pending attachment; the write happens and the session moves on. -/
theorem C8_attach_degraded_witness :
    (runStep tStImg ⟨true, StepFault.attachTimeout, true⟩).sent = true
    ∧ (runStep tStImg ⟨true, StepFault.attachTimeout, true⟩).writes
        = [(tStImg.creators.getD tStImg.cursor default).row]
    ∧ (runStep tStImg ⟨true, StepFault.attachTimeout, true⟩).state.cursor = tStImg.cursor + 1
    ∧ (runStep tStImg ⟨true, StepFault.attachTimeout, true⟩).state.running = true
    ∧ (runStep tStImg ⟨true, StepFault.attachTimeout, true⟩).state.phase = SpecState.Running :=
  C8_attach_degraded tStImg ⟨true, StepFault.attachTimeout, true⟩ (by decide) rfl
    (Or.inl rfl) rfl (by decide)

/-- Claim C9: when the cursor reaches len(queue) the session transitions to
Completed with the queue cleared and the cursor reset to 0, and a
subsequent validated Start runs the rebuild branch: its queue is exactly
the one built from the freshly read store rows. -/
theorem C9_completion (s : SessionState) (io : StepIO)
    (hg : stepGuard s = true) (hd : io.driverOk = true)
    (hf : io.fault = StepFault.ok) (hw : io.writeOk = true)
    (hlast : s.cursor + 1 = s.creators.length) :
    (runStep s io).state.creators = []
    ∧ (runStep s io).state.cursor = 0
    ∧ (runStep s io).state.running = false
    ∧ (runStep s io).state.phase = SpecState.Completed
    ∧ (∀ (inp : StartInputs) (rows : List (List Cell)) (q : List Creator) (w : List Nat),
        (msgsOf inp).isEmpty = false →
        inp.sheetOk = true →
        (pyStrip inp.storeId).isEmpty = false →
        build rows 4 7 = Except.ok (q, w) →
        q.isEmpty = false →
        (startSession (runStep s io).state inp rows).creators = q
          ∧ (startSession (runStep s io).state inp rows).cursor = 0
          ∧ (startSession (runStep s io).state inp rows).running = true
          ∧ (startSession (runStep s io).state inp rows).phase = SpecState.Running) := by
  have hnot : ¬(s.cursor + 1 < s.creators.length) := by omega
  have hstate : (runStep s io).state =
      { creators := [], cursor := 0, running := false, driver := true,
        uploadedImagePaths := [], lastStatus := StatusTag.completed } := by
    by_cases himg : s.uploadedImagePaths.isEmpty = true
    · have hnil : s.uploadedImagePaths = [] := by simpa using himg
      simp [runStep, hg, hd, hf, hw, hnot, himg, hnil]
    · simp [runStep, hg, hd, hf, hw, hnot, himg]
  refine ⟨by rw [hstate], by rw [hstate], by rw [hstate], by rw [hstate]; rfl, ?_⟩
  intro inp rows q w hv1 hv2 hv3 hbuild hqne
  rw [hstate]
  simp [startSession, hv1, hv2, hv3, hbuild, hqne, SessionState.phase]

/-- Witness for C9: completing the second of two targets empties the queue,
and a fresh validated start rebuilds exactly the queue of the sheet fixture. -/
theorem C9_completion_witness :
    (runStep tStMid ⟨true, StepFault.ok, true⟩).state.creators = []
    ∧ (runStep tStMid ⟨true, StepFault.ok, true⟩).state.cursor = 0
    ∧ (runStep tStMid ⟨true, StepFault.ok, true⟩).state.running = false
    ∧ (runStep tStMid ⟨true, StepFault.ok, true⟩).state.phase = SpecState.Completed
    ∧ (∀ (inp : StartInputs) (rows : List (List Cell)) (q : List Creator) (w : List Nat),
        (msgsOf inp).isEmpty = false →
        inp.sheetOk = true →
        (pyStrip inp.storeId).isEmpty = false →
        build rows 4 7 = Except.ok (q, w) →
        q.isEmpty = false →
        (startSession (runStep tStMid ⟨true, StepFault.ok, true⟩).state inp rows).creators = q
          ∧ (startSession (runStep tStMid ⟨true, StepFault.ok, true⟩).state inp rows).cursor = 0
          ∧ (startSession (runStep tStMid ⟨true, StepFault.ok, true⟩).state inp rows).running
              = true
          ∧ (startSession (runStep tStMid ⟨true, StepFault.ok, true⟩).state inp rows).phase
              = SpecState.Running) :=
  C9_completion tStMid ⟨true, StepFault.ok, true⟩ (by decide) rfl rfl rfl (by decide)

/-- Claim C10 evaluated at a failing input (code bug): on a two-target
session with one uploaded image and every step succeeding, the first rerun
does clear the saved path list and delete the temporary file, yet —
because the upload-widget block at the top of every rerun re-saves the
still-uploaded files before the automation block runs — the second rerun
delivers the very same attachment batch to the second target, which
therefore does not receive text blocks only. -/
theorem C10_attachments_resent :
    (rerunStep ["img1.png".data] ⟨true, StepFault.ok, true⟩ tSt).sentImages
        = ["img1.png".data]
    ∧ (rerunStep ["img1.png".data] ⟨true, StepFault.ok, true⟩ tSt).state.uploadedImagePaths
        = []
    ∧ (rerunStep ["img1.png".data] ⟨true, StepFault.ok, true⟩ tSt).deletedTemp
        = ["img1.png".data]
    ∧ (rerunStep ["img1.png".data] ⟨true, StepFault.ok, true⟩ tSt).state.cursor = 1
    ∧ (rerunStep ["img1.png".data] ⟨true, StepFault.ok, true⟩
        (rerunStep ["img1.png".data] ⟨true, StepFault.ok, true⟩ tSt).state).sentImages
        = ["img1.png".data]
    ∧ (rerunStep ["img1.png".data] ⟨true, StepFault.ok, true⟩
        (rerunStep ["img1.png".data] ⟨true, StepFault.ok, true⟩ tSt).state).sentImages
        ≠ [] := by
  decide
